import Mathlib

/-!
Verification development for the payment-reconciliation subsystem of the
soydanirodriguezz-back repository (Azure Functions + Prisma + MercadoPago/Wompi).

The TypeScript sources are embedded shallowly:
* purchases are records mirroring the `purchases` Prisma table,
* the store is a list of purchases; Prisma `update`/`updateMany`/`findFirst`/
  `findMany` become list operations,
* timestamps are `Int` milliseconds (JS `Date.getTime()` / `Date.now()`);
  the source computes `hoursElapsed = (now - createdAt) / 3600000` and compares
  with a bound `h`, which over the reals is equivalent to
  `now - createdAt >= h * 3600000`, the form used here,
* provider network calls (`WompiService.getTransactionStatus`,
  `MercadoPagoService.getPaymentStatus`) are oracles passed as parameters:
  `none` models a thrown/`null` outcome, `some v` a successful response,
* JS truthiness on optional strings (`!x`) is `none` or the empty string.
-/

namespace Reconciliation

/-- A row of the `purchases` table (prisma migrations + the `PendingPurchase`
selection in CleanupService).  `mercadopagoPaymentId`, `paymentProvider` and
`wompiTransactionId` are nullable columns. -/
structure Purchase where
  id : Nat
  mercadopagoPaymentId : Option String
  preferenceId : String
  externalReference : String
  wallpaperNumbers : String
  buyerEmail : String
  buyerName : String
  status : String
  paymentProvider : Option String
  wompiTransactionId : Option String
  createdAt : Int
  updatedAt : Int
  deriving DecidableEq, Repr

/-- The purchase store: the `purchases` table as a list of rows. -/
abbrev Store := List Purchase

/-- JS truthiness test for a nullable string: `!x` holds for `null`/`undefined`
and for the empty string. -/
def optFalsy : Option String → Bool
  | none => true
  | some s => s == ""

/-- JS `String.prototype.startsWith`, on the character lists underlying the
strings (the library version loops over byte positions and is opaque to the
kernel). -/
def strStartsWith (s pre : String) : Bool :=
  pre.data.isPrefixOf s.data

/-- JS `String.prototype.toUpperCase` (ASCII, which covers every status string
the providers emit), as a character-list map. -/
def strUpper (s : String) : String :=
  ⟨s.data.map Char.toUpper⟩

/-- Helper for `strSplitOnDash`: accumulate the current group (reversed) while
walking the characters. -/
def splitDashAux : List Char → List Char → List (List Char)
  | [], cur => [cur.reverse]
  | c :: rest, cur =>
      if c = '-' then cur.reverse :: splitDashAux rest []
      else splitDashAux rest (c :: cur)

/-- JS `String.prototype.split('-')`: the dash-separated groups of the
string. -/
def strSplitOnDash (s : String) : List String :=
  (splitDashAux s.data []).map fun cs => ⟨cs⟩

/-- The four statuses from which no automated transition is supposed to move
(spec terminology; the code itself has no such predicate). -/
def isTerminalStatus (s : String) : Bool :=
  s == "COMPLETED" || s == "APPROVED" || s == "REJECTED" || s == "CANCELLED"

/-- Prisma `purchase.update({ where: { id }, data: { status, updatedAt } })`:
sets `status` and bumps `updatedAt` on the row with the given id,
unconditionally. -/
def applyStatusUpdate (store : Store) (id : Nat) (newStatus : String)
    (now : Int) : Store :=
  store.map fun p =>
    if p.id = id then { p with status := newStatus, updatedAt := now } else p

/-- Prisma update used by `PurchaseService.updatePaymentStatus`: sets `status`,
`mercadopagoPaymentId` and `updatedAt` on the row with the given id. -/
def applyPaymentUpdate (store : Store) (id : Nat) (newStatus : String)
    (paymentId : String) (now : Int) : Store :=
  store.map fun p =>
    if p.id = id then
      { p with status := newStatus, mercadopagoPaymentId := some paymentId,
               updatedAt := now }
    else p

end Reconciliation

namespace CleanupService

open Reconciliation

/-- Return type of `CleanupService.cleanupPendingPurchases`. -/
structure CleanupError where
  purchaseId : Nat
  error : String
  deriving DecidableEq, Repr

/-- Run summary of a cleanup sweep (`CleanupResult` in CleanupService). -/
structure CleanupResult where
  processedCount : Nat
  updatedCount : Nat
  errors : List CleanupError
  deriving DecidableEq, Repr

/-- `isRealWompiTransactionId` helper: the regex `^\d+-\d+-\d+$` is modelled by
splitting on `-` into exactly three nonempty all-digit groups, which matches
the same strings. -/
def isDigitGroup (s : String) : Bool :=
  !s.data.isEmpty && s.data.all Char.isDigit

/-- CleanupService.isRealWompiTransactionId: false for falsy ids, ids starting
with `wallpapers_` or `test_`, and anything not of the `digits-digits-digits`
shape of a provider-assigned Wompi transaction id. -/
def isRealWompiTransactionId (wompiTransactionId : String) : Bool :=
  if wompiTransactionId == "" then false
  else if strStartsWith wompiTransactionId "wallpapers_"
       || strStartsWith wompiTransactionId "test_" then false
  else
    match strSplitOnDash wompiTransactionId with
    | [a, b, c] => isDigitGroup a && isDigitGroup b && isDigitGroup c
    | _ => false

/-- CleanupService.mapWompiStatus (switch on `wompiStatus.toUpperCase()`). -/
def mapWompiStatus (wompiStatus : String) : String :=
  match strUpper wompiStatus with
  | "APPROVED" => "COMPLETED"
  | "DECLINED" => "REJECTED"
  | "ERROR" => "REJECTED"
  | "VOIDED" => "CANCELLED"
  | _ => "PENDING"

/-- CleanupService.mapMercadoPagoStatus (the provider-aware CleanupService
version: plain switch, no lowercasing). -/
def mapMercadoPagoStatus (mpStatus : String) : String :=
  match mpStatus with
  | "approved" => "COMPLETED"
  | "rejected" => "REJECTED"
  | "cancelled" => "REJECTED"
  | "refunded" => "CANCELLED"
  | "charged_back" => "CANCELLED"
  | _ => "PENDING"

/-- Fields of the object returned by `MercadoPagoService.getPaymentStatus` that
the sweep reads. -/
structure MPPaymentStatus where
  id : Option String
  status : String
  deriving DecidableEq, Repr

/-- CleanupService.searchPaymentsByReference: the implementation always
returns an empty array (the search API is not configured). -/
def searchPaymentsByReference (_externalReference : String) :
    List MPPaymentStatus := []

/-- The status-update decision of `CleanupService.processWompiPurchase` for one
purchase: `some s` when the method executes the final
`prisma.purchase.update` with `newStatus = s` (the guard is
`shouldUpdate && newStatus !== purchase.status`), `none` when it leaves the
row untouched.  `wompiApi` is the `WompiService.getTransactionStatus` oracle
(`none` = the call threw). -/
def processWompiPurchase (now : Int) (wompiApi : String → Option String)
    (p : Purchase) : Option String :=
  -- Caso 1: no transaction id and created more than 30 minutes ago
  if optFalsy p.wompiTransactionId && decide (p.createdAt < now - 30 * 60 * 1000) then
    if "CANCELLED" = p.status then none else some "CANCELLED"
  -- Caso 2: it has a (truthy) transaction id
  else if !optFalsy p.wompiTransactionId then
    let tid := p.wompiTransactionId.getD ""
    if isRealWompiTransactionId tid then
      match wompiApi tid with
      | some wompiStatus =>
          let newStatus := mapWompiStatus wompiStatus
          if newStatus = p.status then none else some newStatus
      | none =>
          -- API failed: hard 24-hour timeout policy
          if now - p.createdAt ≥ 24 * 60 * 60 * 1000 then
            if "CANCELLED" = p.status then none else some "CANCELLED"
          else none
    else
      -- id is only a reference: 6-hour timeout policy
      if now - p.createdAt ≥ 6 * 60 * 60 * 1000 then
        if "CANCELLED" = p.status then none else some "CANCELLED"
      else none
  else none

/-- The status-update decision of `CleanupService.processMercadoPagoPurchase`.
`mpApi` is the `MercadoPagoService.getPaymentStatus` oracle; `none` covers
both a thrown call and a `null` result (the two deployed variants), which the
method treats identically: `paymentStatus` stays null and `shouldUpdate` is
only set by the 30-minute expiry branch. -/
def processMercadoPagoPurchase (now : Int)
    (mpApi : String → Option MPPaymentStatus) (p : Purchase) : Option String :=
  let queried : Option MPPaymentStatus :=
    match p.mercadopagoPaymentId with
    | some pid => if pid == "" then none else mpApi pid
    | none => none
  -- fallback search by reference: always empty, so it never yields a payment
  let paymentStatus : Option MPPaymentStatus :=
    match queried with
    | some ps => some ps
    | none =>
        match searchPaymentsByReference p.externalReference with
        | ps :: _ => some ps
        | [] => none
  match paymentStatus with
  | some ps =>
      let newStatus := mapMercadoPagoStatus ps.status
      if newStatus = p.status then none else some newStatus
  | none =>
      -- no payment found after 30 minutes: expire
      if decide (p.createdAt < now - 30 * 60 * 1000) then
        if "CANCELLED" = p.status then none else some "CANCELLED"
      else none

/-- CleanupService.processPendingPurchase: dispatch on
`purchase.paymentProvider || 'MERCADOPAGO'`; unknown providers are only
logged. -/
def processPendingPurchase (now : Int) (wompiApi : String → Option String)
    (mpApi : String → Option MPPaymentStatus) (p : Purchase) : Option String :=
  let provider :=
    match p.paymentProvider with
    | some pr => if pr == "" then "MERCADOPAGO" else pr
    | none => "MERCADOPAGO"
  if provider = "WOMPI" then processWompiPurchase now wompiApi p
  else if provider = "MERCADOPAGO" then processMercadoPagoPurchase now mpApi p
  else none

/-- One iteration of the loop in `cleanupPendingPurchases`: a successful
`processPendingPurchase` increments `updatedCount`, a thrown error is pushed
onto `errors`.  The processing outcome is abstract (`Except`) because any step
of the per-purchase work may throw. -/
def cleanupStep (process : Purchase → Except String (Option String))
    (acc : CleanupResult) (p : Purchase) : CleanupResult :=
  match process p with
  | Except.ok _ => { acc with updatedCount := acc.updatedCount + 1 }
  | Except.error msg => { acc with errors := acc.errors ++ [⟨p.id, msg⟩] }

/-- CleanupService.cleanupPendingPurchases: the initial
`prisma.purchase.findMany({ where: { status: PENDING } })` is the abstract
`load` (its failure propagates out of the method); each loaded purchase is
then processed, with `processedCount` set to the number loaded. -/
def cleanupPendingPurchases (load : Except String (List Purchase))
    (process : Purchase → Except String (Option String)) :
    Except String CleanupResult :=
  match load with
  | Except.error e => Except.error e
  | Except.ok pendingPurchases =>
      Except.ok (pendingPurchases.foldl (cleanupStep process)
        ⟨pendingPurchases.length, 0, []⟩)

/-- The store effect of one full sweep: load the PENDING purchases (the
snapshot), then for each one apply the decided status update (if any) to the
store by purchase id. -/
def runSweep (now : Int) (wompiApi : String → Option String)
    (mpApi : String → Option MPPaymentStatus) (store : Store) : Store :=
  let pending := store.filter fun p => p.status == "PENDING"
  pending.foldl
    (fun st p =>
      match processPendingPurchase now wompiApi mpApi p with
      | some newStatus => applyStatusUpdate st p.id newStatus now
      | none => st)
    store

end CleanupService

namespace WompiService

open Reconciliation

/-- JS `Array.prototype.join('-')` on a number array: each number is printed
in decimal and the pieces are joined with single dashes. -/
def joinDash : List Nat → String
  | [] => ""
  | [n] => Nat.repr n
  | n :: rest => Nat.repr n ++ "-" ++ joinDash rest

/-- The unique reference built by `WompiService.createPayment`:
`wallpapers_${wallpaperNumbers.join('-')}_${Date.now()}`. -/
def createReference (wallpaperNumbers : List Nat) (now : Nat) : String :=
  "wallpapers_" ++ joinDash wallpaperNumbers ++ "_" ++ Nat.repr now

/-- WompiService.validateWebhookSignature: the body is a single
`return true` (the HMAC comparison is commented out), so every
payload/signature pair validates. -/
def validateWebhookSignature (_payload : String) (_signature : String) : Bool :=
  true

end WompiService

namespace MercadoPagoService

/-- The external reference built by `MercadoPagoService.createPayment`:
`wallpapers_${wallpaperNumbers.join('-')}_${Date.now()}` — the same shape as
the Wompi reference. -/
def createReference (wallpaperNumbers : List Nat) (now : Nat) : String :=
  "wallpapers_" ++ WompiService.joinDash wallpaperNumbers ++ "_" ++ Nat.repr now

end MercadoPagoService

namespace PurchaseService

open Reconciliation

/-- PurchaseService.updatePaymentStatus: resolve the purchase by
`mercadopagoPaymentId` first, then (when the event carries a truthy
`externalReference`) by `externalReference`; when a purchase resolves, write
`status`, `mercadopagoPaymentId` and `updatedAt` unconditionally; when none
resolves, log and return.  `eventReference` is `paymentData?.externalReference`
of the caller. -/
def updatePaymentStatus (mercadopagoPaymentId : String) (status : String)
    (eventReference : Option String) (now : Int) (store : Store) : Store :=
  match store.find? fun p =>
      p.mercadopagoPaymentId == some mercadopagoPaymentId with
  | some purchase =>
      applyPaymentUpdate store purchase.id status mercadopagoPaymentId now
  | none =>
      if !optFalsy eventReference then
        match store.find? fun p =>
            some p.externalReference == eventReference with
        | some purchase =>
            applyPaymentUpdate store purchase.id status mercadopagoPaymentId now
        | none => store
      else store

end PurchaseService

namespace WompiPurchaseService

open Reconciliation

/-- WompiPurchaseService.updatePurchaseStatus: the body only logs
("webhook only" placeholder), leaving every purchase untouched. -/
def updatePurchaseStatus (_transactionId : String) (store : Store) : Store :=
  store

/-- Prisma `where` filters treat an `undefined` value as an absent filter, so
`updateMany({ where: { externalReference } })` with an undefined reference
matches every row. -/
def matchesReferenceFilter (reference : Option String) (p : Purchase) : Bool :=
  match reference with
  | none => true
  | some r => p.externalReference == r

/-- WompiPurchaseService.updatePurchaseStatusByReference:
`prisma.purchase.updateMany({ where: { externalReference }, data: { status,
updatedAt } })` — an unconditional bulk write on every matching row. -/
def updatePurchaseStatusByReference (reference : Option String)
    (status : String) (now : Int) (store : Store) : Store :=
  store.map fun p =>
    if matchesReferenceFilter reference p then
      { p with status := status, updatedAt := now }
    else p

end WompiPurchaseService

namespace Webhooks

open Reconciliation

/-- Outcome of a webhook function as seen by the provider: the
`ApiResponseBuilder` responses keep a success flag and an HTTP status code. -/
structure ApiOutcome where
  success : Bool
  statusCode : Nat
  deriving DecidableEq, Repr

def ok200 : ApiOutcome := ⟨true, 200⟩

def badRequest400 : ApiOutcome := ⟨false, 400⟩

def unauthorized401 : ApiOutcome := ⟨false, 401⟩

def internalError500 : ApiOutcome := ⟨false, 500⟩

/-- The `data.transaction` object of a Wompi webhook body. -/
structure WompiTransaction where
  id : Option String
  status : Option String
  reference : Option String
  deriving DecidableEq, Repr

/-- The `data.payment_link` object of a Wompi webhook body. -/
structure WompiPaymentLink where
  id : Option String
  reference : Option String
  deriving DecidableEq, Repr

/-- The `data` object of a Wompi webhook body. -/
structure WompiData where
  transaction : Option WompiTransaction
  paymentLink : Option WompiPaymentLink
  deriving DecidableEq, Repr

/-- A Wompi webhook request body: `{ event, data, signature }`. -/
structure WompiBody where
  event : Option String
  data : Option WompiData
  signature : Option String
  deriving DecidableEq, Repr

/-- Stand-in for `JSON.stringify(req.body)`; `validateWebhookSignature`
ignores its payload argument, so the serialization is irrelevant. -/
def stringifyWompiBody (_b : WompiBody) : String := ""

/-- funcWebhookWompi.handleTransactionUpdated: bail out when
`transaction`/`transaction.id` is falsy, otherwise delegate to
`WompiPurchaseService.updatePurchaseStatus` (which leaves the store
unchanged). -/
def handleTransactionUpdated (d : WompiData) (store : Store) : Store :=
  match d.transaction with
  | none => store
  | some t =>
      if optFalsy t.id then store
      else WompiPurchaseService.updatePurchaseStatus (t.id.getD "") store

/-- funcWebhookWompi.handlePaymentLinkPaid: bail out when
`payment_link`/`payment_link.id` is falsy, otherwise set every purchase with
the link reference to COMPLETED. -/
def handlePaymentLinkPaid (d : WompiData) (now : Int) (store : Store) : Store :=
  match d.paymentLink with
  | none => store
  | some pl =>
      if optFalsy pl.id then store
      else WompiPurchaseService.updatePurchaseStatusByReference pl.reference
        "COMPLETED" now store

/-- funcWebhookWompi.handlePaymentLinkExpired: same resolution as the paid
handler, writing CANCELLED. -/
def handlePaymentLinkExpired (d : WompiData) (now : Int) (store : Store) :
    Store :=
  match d.paymentLink with
  | none => store
  | some pl =>
      if optFalsy pl.id then store
      else WompiPurchaseService.updatePurchaseStatusByReference pl.reference
        "CANCELLED" now store

/-- funcWebhookWompi: reject a missing body or a falsy `event`/`data` with
400; validate the signature when present (the validator always accepts);
dispatch on the event name; every processing error is caught and turned into
a 200, so the dispatch itself always answers 200. -/
def funcWebhookWompi (body : Option WompiBody) (now : Int) (store : Store) :
    ApiOutcome × Store :=
  match body with
  | none => (badRequest400, store)
  | some b =>
      if optFalsy b.event || b.data.isNone then (badRequest400, store)
      else
        let proceed :=
          match b.signature with
          | some sig =>
              WompiService.validateWebhookSignature (stringifyWompiBody b) sig
          | none => true
        if proceed then
          let d := b.data.getD ⟨none, none⟩
          match b.event.getD "" with
          | "transaction.updated" => (ok200, handleTransactionUpdated d store)
          | "payment_link.paid" => (ok200, handlePaymentLinkPaid d now store)
          | "payment_link.expired" =>
              (ok200, handlePaymentLinkExpired d now store)
          | _ => (ok200, store)
        else (unauthorized401, store)

/-- The `data` object of a MercadoPago webhook body (`data.id` is the payment
id). -/
structure MPData where
  id : Option String
  deriving DecidableEq, Repr

/-- A MercadoPago webhook request body: `{ type, data, action }`;
`externalReference` models `req.body.externalReference`, read as
`paymentData?.externalReference` inside updatePaymentStatus. -/
structure MPBody where
  type : Option String
  data : Option MPData
  action : Option String
  externalReference : Option String
  deriving DecidableEq, Repr

/-- funcWebhookMercadoPago: a missing/invalid envelope and an unhandled type
are answered 200 (deliberately, to stop MercadoPago retries); a payment
notification derives a status from `action` and calls
`PurchaseService.updatePaymentStatus`, which is not wrapped in a try/catch —
a throw there (modelled by `updateThrows`) escapes to the error middleware,
which answers 500. -/
def funcWebhookMercadoPago (body : Option MPBody)
    (updateThrows : Option String) (now : Int) (store : Store) :
    ApiOutcome × Store :=
  let type := body.bind (·.type)
  let data := body.bind (·.data)
  if optFalsy type || data.isNone then (ok200, store)
  else if type.getD "" = "payment" then
    let paymentId := (data.getD ⟨none⟩).id
    if optFalsy paymentId then (ok200, store)
    else
      let status :=
        if (body.bind (·.action)).getD "" = "payment.created" then "PENDING"
        else if (body.bind (·.action)).getD "" = "payment.updated" then
          "APPROVED"
        else "PENDING"
      match updateThrows with
      | some _ => (internalError500, store)
      | none =>
          (ok200, PurchaseService.updatePaymentStatus (paymentId.getD "")
            status (body.bind (·.externalReference)) now store)
  else (ok200, store)

end Webhooks

namespace Fixtures

open Reconciliation

/-- A freshly created Wompi purchase with no provider transaction yet. -/
def wompiFresh : Purchase :=
  { id := 1, mercadopagoPaymentId := none, preferenceId := "wallpapers_7_100"
    externalReference := "wallpapers_7_100", wallpaperNumbers := "[7]"
    buyerEmail := "b@example.com", buyerName := "B", status := "PENDING"
    paymentProvider := some "WOMPI", wompiTransactionId := none
    createdAt := 0, updatedAt := 0 }

/-- A purchase already in the terminal status REJECTED. -/
def rejectedPurchase : Purchase :=
  { wompiFresh with id := 2, status := "REJECTED"
                    externalReference := "wallpapers_9_200"
                    wompiTransactionId := some "wallpapers_9_200" }

/-- A MercadoPago purchase that holds a provider-assigned payment id. -/
def mpWithPaymentId : Purchase :=
  { wompiFresh with id := 3, paymentProvider := some "MERCADOPAGO"
                    mercadopagoPaymentId := some "123456789"
                    externalReference := "wallpapers_3_300" }

end Fixtures

section Smoke

open Reconciliation CleanupService

example : isRealWompiTransactionId "11779666-1756257523-64296" = true := by decide

example : isRealWompiTransactionId "wallpapers_18_1756257513564" = false := by decide

example : mapWompiStatus "approved" = "COMPLETED" := by decide

end Smoke

open Reconciliation CleanupService Webhooks

/-- C9: validateWebhookSignature accepts every (payload, signature) pair, and
two Wompi webhook deliveries that differ only in their signature field produce
the same outcome and the same store, so signature verification never rejects
an event. -/
theorem C9_signature_never_rejects :
    (∀ payload signature,
      WompiService.validateWebhookSignature payload signature = true) ∧
    ∀ (b : WompiBody) (s1 s2 : Option String) (now : Int) (store : Store),
      funcWebhookWompi (some { b with signature := s1 }) now store =
        funcWebhookWompi (some { b with signature := s2 }) now store := by
  refine ⟨fun _ _ => rfl, fun b s1 s2 now store => ?_⟩
  cases s1 <;> cases s2 <;>
    simp [funcWebhookWompi, WompiService.validateWebhookSignature]

/-- C10: a Wompi transaction.updated event never modifies any purchase:
updatePurchaseStatus only logs, and the full handler returns the store it was
given, unchanged in every field. -/
theorem C10_transaction_updated_is_noop :
    (∀ transactionId store,
      WompiPurchaseService.updatePurchaseStatus transactionId store = store) ∧
    ∀ (d : WompiData) (sig : Option String) (now : Int) (store : Store),
      funcWebhookWompi (some ⟨some "transaction.updated", some d, sig⟩)
          now store =
        (ok200, store) := by
  refine ⟨fun _ _ => rfl, fun d sig now store => ?_⟩
  cases sig <;>
    simp [funcWebhookWompi, optFalsy, handleTransactionUpdated,
      WompiService.validateWebhookSignature,
      WompiPurchaseService.updatePurchaseStatus] <;>
  · cases d.transaction with
    | none => rfl
    | some t =>
        cases h : t.id <;>
          simp [optFalsy, WompiPurchaseService.updatePurchaseStatus]

/-- C1 counterexample: a purchase already in the terminal status REJECTED is
flipped to COMPLETED by the webhook-ingestion path (a payment_link.paid event
routed through updatePurchaseStatusByReference, which writes unconditionally),
so a terminal status is not sticky under webhook status updates. -/
theorem C1_counterexample :
    isTerminalStatus Fixtures.rejectedPurchase.status = true ∧
    ((funcWebhookWompi
        (some ⟨some "payment_link.paid",
          some ⟨none, some ⟨some "pl1", some "wallpapers_9_200"⟩⟩, none⟩)
        5 [Fixtures.rejectedPurchase]).2.map (fun p => p.status)) =
      ["COMPLETED"] := by
  decide

/-- C2 counterexample: a PENDING MercadoPago purchase that carries a
provider-assigned payment id, whose live status query fails, and that is only
2 hours old (far within any 24-hour window) is nonetheless CANCELLED by the
sweep: the MercadoPago branch expires every purchase without a retrievable
payment after 30 minutes, so the claim's case analysis (which requires it to
remain PENDING) does not hold for the MercadoPago path. -/
theorem C2_counterexample :
    Fixtures.mpWithPaymentId.status = "PENDING" ∧
    Fixtures.mpWithPaymentId.mercadopagoPaymentId = some "123456789" ∧
    processPendingPurchase 7200000 (fun _ => none) (fun _ => none)
      Fixtures.mpWithPaymentId = some "CANCELLED" := by
  decide

/-- C3 counterexample: a MercadoPago webhook delivery whose type field is
absent is answered with a success outcome (HTTP 200), not a failure, so the
claim that the handler fails exactly on a missing eventType/payload is wrong
for the MercadoPago ingestion function. -/
theorem C3_counterexample :
    (funcWebhookMercadoPago (some ⟨none, some ⟨some "1"⟩, none, none⟩)
      none 0 []).1 = ok200 := by
  decide

/-- C4 counterexample: the sweep decision is computed from a PENDING snapshot
of the purchase, but the persist step is an unconditional update by id: even
when the stored status has meanwhile become COMPLETED (a webhook won the
race), the write still lands and overwrites the terminal status with
CANCELLED — there is no conditional write guarding on the status that was
read. -/
theorem C4_counterexample :
    processWompiPurchase 1800001 (fun _ => none) Fixtures.wompiFresh =
      some "CANCELLED" ∧
    Fixtures.wompiFresh.status = "PENDING" ∧
    (applyStatusUpdate [{ Fixtures.wompiFresh with status := "COMPLETED" }]
        Fixtures.wompiFresh.id "CANCELLED" 1800001).map (fun p => p.status) =
      ["CANCELLED"] := by
  decide

/-- C7 counterexample: the reference generators of both providers produce
`wallpapers_(list)_(timestamp)`, so two purchase creations that observe the
same millisecond timestamp and the same wallpaper list — whether through the
same provider twice or through both providers — receive the same
externalReference; nothing else (no database unique constraint) enforces the
uniqueness the claim asserts. -/
theorem C7_counterexample :
    WompiService.createReference [7] 123 =
      MercadoPagoService.createReference [7] 123 ∧
    WompiService.createReference [7] 123 = "wallpapers_7_123" := by
  constructor
  · rfl
  · decide

/-- C8 counterexample: a run over one young PENDING Wompi purchase (1 minute
old, no transaction id) performs no status transition at all, yet the run
summary reports updatedCount = 1 — updatedCount counts purchases processed
without error, not purchases actually transitioned. -/
theorem C8_counterexample :
    cleanupPendingPurchases (Except.ok [Fixtures.wompiFresh])
        (fun p => Except.ok
          (processPendingPurchase 60000 (fun _ => none) (fun _ => none) p)) =
      Except.ok ⟨1, 1, []⟩ ∧
    processPendingPurchase 60000 (fun _ => none) (fun _ => none)
      Fixtures.wompiFresh = none := by
  exact ⟨rfl, rfl⟩

/-- Whether processing a purchase completed without throwing. -/
def processOk (process : Purchase → Except String (Option String))
    (p : Purchase) : Bool :=
  match process p with
  | Except.ok _ => true
  | Except.error _ => false

/-- The error entry a purchase contributes to the run summary, if any. -/
def errOf (process : Purchase → Except String (Option String))
    (p : Purchase) : Option CleanupError :=
  match process p with
  | Except.ok _ => none
  | Except.error msg => some ⟨p.id, msg⟩

/-- Unrolling the cleanup loop: starting from any accumulator, the loop adds
one to updatedCount per purchase processed without error and appends one error
entry per purchase whose processing threw. -/
theorem cleanup_foldl_eq (process : Purchase → Except String (Option String)) :
    ∀ (ps : List Purchase) (acc : CleanupResult),
      ps.foldl (cleanupStep process) acc =
        ⟨acc.processedCount,
         acc.updatedCount + (ps.filter (processOk process)).length,
         acc.errors ++ ps.filterMap (errOf process)⟩ := by
  intro ps
  induction ps with
  | nil => intro acc; simp
  | cons p rest ih =>
      intro acc
      cases hp : process p with
      | ok v =>
          simp [List.foldl_cons, cleanupStep, hp, ih, processOk, errOf,
            List.filter_cons, List.filterMap_cons]
          omega
      | error m =>
          simp [List.foldl_cons, cleanupStep, hp, ih, processOk, errOf,
            List.filter_cons, List.filterMap_cons]

/-- C6: the sweep returns an error exactly when the initial load of PENDING
purchases fails; when the load succeeds, every loaded purchase is processed,
and each per-purchase error is captured as a {purchaseId, error} entry in the
run result instead of being thrown. -/
theorem C6_sweep_error_propagation :
    (∀ (load : Except String (List Purchase))
        (process : Purchase → Except String (Option String)) (e : String),
      cleanupPendingPurchases load process = Except.error e ↔
        load = Except.error e) ∧
    (∀ (ps : List Purchase)
        (process : Purchase → Except String (Option String)),
      ∃ r, cleanupPendingPurchases (Except.ok ps) process = Except.ok r ∧
        r.errors = ps.filterMap (errOf process) ∧
        r.processedCount = ps.length) := by
  constructor
  · intro load process e
    cases load with
    | ok ps => simp [cleanupPendingPurchases]
    | error e2 => simp [cleanupPendingPurchases]
  · intro ps process
    refine ⟨_, rfl, ?_, ?_⟩ <;> simp [cleanupPendingPurchases, cleanup_foldl_eq]

/-- C8 amended: the run summary of a successful sweep reports processedCount
equal to the number of PENDING purchases scanned, one error entry per purchase
whose processing threw, and updatedCount equal to the number of purchases
processed without error — including purchases whose status was not changed at
all, contrary to the original claim. -/
theorem C8_amended :
    ∀ (ps : List Purchase)
      (process : Purchase → Except String (Option String)),
      ∃ r, cleanupPendingPurchases (Except.ok ps) process = Except.ok r ∧
        r.processedCount = ps.length ∧
        r.updatedCount = (ps.filter (processOk process)).length ∧
        r.errors = ps.filterMap (errOf process) := by
  intro ps process
  refine ⟨_, rfl, ?_, ?_, ?_⟩ <;>
    simp [cleanupPendingPurchases, cleanup_foldl_eq]

/-- C3 amended: the Wompi webhook function returns a failure outcome exactly
when the body is missing or its event/data field is absent (signature
validation always accepts, so its rejection branch is unreachable); the
MercadoPago webhook function answers success even on a missing type/data
field, and fails only when the status-update call of a payment notification
throws (the throw escapes to the error middleware as a 500). -/
theorem wompi_outcome_ok (b : WompiBody) (now : Int) (store : Store)
    (hev : optFalsy b.event = false) (hda : b.data.isNone = false) :
    (funcWebhookWompi (some b) now store).1 = ok200 := by
  rw [funcWebhookWompi]
  simp only [hev, hda, Bool.or_self, Bool.false_eq_true, if_false]
  cases b.signature <;>
    simp only [WompiService.validateWebhookSignature, if_true] <;>
    split <;> rfl

theorem C3_amended :
    (∀ (ob : Option WompiBody) (now : Int) (store : Store),
      ((funcWebhookWompi ob now store).1.success = false ↔
        match ob with
        | none => True
        | some b => optFalsy b.event = true ∨ b.data = none)) ∧
    (∀ (ob : Option MPBody) (updateThrows : Option String) (now : Int)
        (store : Store),
      ((funcWebhookMercadoPago ob updateThrows now store).1.success = false ↔
        (updateThrows ≠ none ∧
          optFalsy (ob.bind (fun b => b.type)) = false ∧
          (ob.bind (fun b => b.data)).isNone = false ∧
          (ob.bind (fun b => b.type)).getD "" = "payment" ∧
          optFalsy ((ob.bind (fun b => b.data)).getD ⟨none⟩).id = false))) := by
  constructor
  · intro ob now store
    cases ob with
    | none => simp [funcWebhookWompi, badRequest400]
    | some b =>
        by_cases hev : optFalsy b.event = true
        · rw [funcWebhookWompi]
          simp only [hev, Bool.true_or, if_true]
          simp [badRequest400, hev]
        · have hev2 : optFalsy b.event = false := by
            revert hev; cases optFalsy b.event <;> simp
          by_cases hda : b.data.isNone = true
          · rw [funcWebhookWompi]
            simp only [hda, Bool.or_true, if_true]
            simp [badRequest400]
            exact Or.inr (Option.isNone_iff_eq_none.mp hda)
          · have hda2 : b.data.isNone = false := by
              revert hda; cases b.data.isNone <;> simp
            rw [wompi_outcome_ok b now store hev2 hda2]
            simp [ok200, hev2]
            intro h
            rw [h] at hda2
            simp at hda2
  · intro ob updateThrows now store
    rw [funcWebhookMercadoPago]
    by_cases hty : optFalsy (ob.bind (fun b => b.type)) = true
    · simp only [hty, Bool.true_or, if_true]
      simp [ok200]
    · have hty2 : optFalsy (ob.bind (fun b => b.type)) = false := by
        revert hty; cases optFalsy (ob.bind (fun b => b.type)) <;> simp
      by_cases hda : (ob.bind (fun b => b.data)).isNone = true
      · simp only [hty2, hda, Bool.false_or, if_true]
        simp [ok200]
      · have hda2 : (ob.bind (fun b => b.data)).isNone = false := by
          revert hda; cases (ob.bind (fun b => b.data)).isNone <;> simp
        simp only [hty2, hda2, Bool.or_self, Bool.false_eq_true, if_false]
        by_cases hpay : (ob.bind (fun b => b.type)).getD "" = "payment"
        · simp only [hpay, if_true]
          by_cases hpid :
              optFalsy ((ob.bind (fun b => b.data)).getD ⟨none⟩).id = true
          · simp only [hpid, if_true]
            simp [ok200]
          · have hpid2 :
                optFalsy ((ob.bind (fun b => b.data)).getD ⟨none⟩).id =
                  false := by
              revert hpid
              cases optFalsy ((ob.bind (fun b => b.data)).getD ⟨none⟩).id <;>
                simp
            simp only [hpid2, Bool.false_eq_true, if_false]
            cases updateThrows with
            | none => simp [ok200]
            | some e =>
                simp [internalError500, hty2, hda2, hpay, hpid2]
        · simp only [hpay, if_false]
          simp [ok200]

/-- C4 amended: the persist step used by the sweep and the webhook writers is
an unconditional update keyed by purchase id: every row carrying the written
id ends up with the decided status regardless of the status stored at write
time, and the decided row is present in the written store — there is no
compare-and-swap on the previously read status, so a concurrent writer's
update is simply overwritten. -/
theorem C4_amended (store : Store) (i : Nat) (ns : String) (t : Int) :
    (∀ q ∈ applyStatusUpdate store i ns t, q.id = i → q.status = ns) ∧
    (∀ p ∈ store, p.id = i →
      ({ p with status := ns, updatedAt := t } : Purchase) ∈
        applyStatusUpdate store i ns t) := by
  constructor
  · intro q hq hqi
    rcases List.mem_map.mp hq with ⟨p, hp, hfp⟩
    by_cases hpi : p.id = i
    · rw [← hfp]; simp [hpi]
    · rw [← hfp] at hqi ⊢
      simp [hpi] at hqi ⊢
  · intro p hp hpi
    have : ({ p with status := ns, updatedAt := t } : Purchase) =
        (fun p => if p.id = i then
          { p with status := ns, updatedAt := t } else p) p := by
      simp [hpi]
    rw [this]
    exact List.mem_map_of_mem _ hp

/-- Witness for C4 amended at a concrete raced store: the row whose stored
status is COMPLETED still ends up CANCELLED after the unconditional write. -/
theorem C4_amended_witness :
    ({ Fixtures.wompiFresh with status := "CANCELLED", updatedAt := 9 } :
        Purchase) ∈
      applyStatusUpdate [{ Fixtures.wompiFresh with status := "COMPLETED" }]
        1 "CANCELLED" 9 := by
  have h := (C4_amended [{ Fixtures.wompiFresh with status := "COMPLETED" }]
    1 "CANCELLED" 9).2 { Fixtures.wompiFresh with status := "COMPLETED" }
    (by decide) (by decide)
  exact h

/-- In a store whose ids are unique, looking a purchase up by its own id finds
exactly that purchase. -/
theorem find?_id_eq_of_nodup (store : Store) (q : Purchase)
    (hnd : (store.map (fun p => p.id)).Nodup) (hq : q ∈ store) :
    store.find? (fun p => p.id == q.id) = some q := by
  induction store with
  | nil => cases hq
  | cons h t ih =>
      rw [List.map_cons, List.nodup_cons] at hnd
      rcases List.mem_cons.mp hq with rfl | hqt
      · simp [List.find?_cons]
      · have hne : h.id ≠ q.id := by
          intro he
          exact hnd.1 (he ▸ List.mem_map_of_mem (fun p => p.id) hqt)
        rw [List.find?_cons]
        have : (h.id == q.id) = false := by simp [hne]
        rw [this]
        exact ih hnd.2 hqt

/-- An update keyed on a different id does not change what a lookup by id
finds. -/
theorem find?_applyStatusUpdate_ne (st : Store) (i : Nat) (ns : String)
    (t : Int) (qid : Nat) (h : i ≠ qid) :
    (applyStatusUpdate st i ns t).find? (fun p => p.id == qid) =
      st.find? (fun p => p.id == qid) := by
  induction st with
  | nil => rfl
  | cons hd tl ih =>
      have h3 : (i == qid) = false := by simp [h]
      by_cases hh : hd.id = i
      · simp [applyStatusUpdate, List.find?_cons, hh, h3] at ih ⊢
        exact ih
      · by_cases hq : hd.id = qid
        · have h4 : ¬ qid = i := fun he => h he.symm
          simp [applyStatusUpdate, List.find?_cons, hh, hq, h4]
        · simp [applyStatusUpdate, List.find?_cons, hh, hq] at ih ⊢
          exact ih

/-- The sweep loop leaves every id it does not process untouched, as far as
lookups by that id can see. -/
theorem sweep_foldl_preserves (now : Int) (wompiApi : String → Option String)
    (mpApi : String → Option MPPaymentStatus) (pending : List Purchase)
    (qid : Nat) (hpen : ∀ p ∈ pending, p.id ≠ qid) :
    ∀ st : Store,
      (pending.foldl
        (fun st p =>
          match processPendingPurchase now wompiApi mpApi p with
          | some newStatus => applyStatusUpdate st p.id newStatus now
          | none => st)
        st).find? (fun p => p.id == qid) =
      st.find? (fun p => p.id == qid) := by
  induction pending with
  | nil => intro st; rfl
  | cons p rest ih =>
      intro st
      rw [List.foldl_cons]
      have hp : p.id ≠ qid := hpen p (List.mem_cons_self p rest)
      have hrest : ∀ r ∈ rest, r.id ≠ qid := fun r hr =>
        hpen r (List.mem_cons_of_mem p hr)
      cases hd : processPendingPurchase now wompiApi mpApi p with
      | some ns =>
          rw [ih hrest]
          exact find?_applyStatusUpdate_ne st p.id ns now qid hp
      | none => exact ih hrest st

/-- C1 amended: a reconciliation sweep never changes a purchase whose status
is terminal — the sweep only loads PENDING purchases, so a terminal purchase
is never selected and its row survives the run byte for byte.  (The webhook
status updates, by contrast, write unconditionally and can change terminal
statuses, as the counterexample shows.) -/
theorem C1_amended (now : Int) (wompiApi : String → Option String)
    (mpApi : String → Option MPPaymentStatus) (store : Store) (q : Purchase)
    (hnd : (store.map (fun p => p.id)).Nodup) (hq : q ∈ store)
    (hterm : isTerminalStatus q.status = true) :
    (runSweep now wompiApi mpApi store).find? (fun p => p.id == q.id) =
      some q := by
  rw [runSweep]
  have hpen : ∀ p ∈ store.filter (fun p => p.status == "PENDING"),
      p.id ≠ q.id := by
    intro p hp hpq
    have hmf := List.mem_filter.mp hp
    have hps : (p.status == "PENDING") = true := hmf.2
    have hpm : p ∈ store := hmf.1
    have hpq2 : p = q :=
      List.inj_on_of_nodup_map hnd hpm hq hpq
    rw [hpq2] at hps
    have : q.status = "PENDING" := by simpa using hps
    rw [this] at hterm
    exact absurd hterm (by decide)
  rw [sweep_foldl_preserves now wompiApi mpApi _ q.id hpen store]
  exact find?_id_eq_of_nodup store q hnd hq

/-- Witness for C1 amended: a concrete sweep over a store holding one REJECTED
purchase leaves that purchase untouched. -/
theorem C1_amended_witness :
    (runSweep 0 (fun _ => none) (fun _ => none)
        [Fixtures.rejectedPurchase]).find?
      (fun p => p.id == Fixtures.rejectedPurchase.id) =
      some Fixtures.rejectedPurchase :=
  C1_amended 0 (fun _ => none) (fun _ => none) [Fixtures.rejectedPurchase]
    Fixtures.rejectedPurchase (by decide) (by decide) (by decide)
/-- C2 amended: for a purchase loaded with status PENDING the sweep decides as
follows.  Wompi purchases follow the claimed policy: no transaction id and
older than 30 minutes cancels; a reference-shaped transaction id cancels after
6 hours; a provider-shaped id with a failed live query cancels after 24 hours;
a successful live query adopts the normalized live status (a no-op when it
normalizes to PENDING).  MercadoPago purchases follow a different policy than
claimed: a successful live query adopts the normalized status, but in every
other case — including a provider-assigned payment id whose live query fails —
the purchase is cancelled as soon as it is more than 30 minutes old, with no
6-hour or 24-hour window. -/
theorem C2_amended (now : Int) (wompiApi : String → Option String)
    (mpApi : String → Option MPPaymentStatus) (p : Purchase)
    (hp : p.status = "PENDING") :
    (p.paymentProvider = some "WOMPI" →
      (optFalsy p.wompiTransactionId = true →
        processPendingPurchase now wompiApi mpApi p =
          if p.createdAt < now - 30 * 60 * 1000 then some "CANCELLED"
          else none) ∧
      (optFalsy p.wompiTransactionId = false →
        (isRealWompiTransactionId (p.wompiTransactionId.getD "") = true →
          (∀ liveStatus,
            wompiApi (p.wompiTransactionId.getD "") = some liveStatus →
            processPendingPurchase now wompiApi mpApi p =
              if mapWompiStatus liveStatus = "PENDING" then none
              else some (mapWompiStatus liveStatus)) ∧
          (wompiApi (p.wompiTransactionId.getD "") = none →
            processPendingPurchase now wompiApi mpApi p =
              if now - p.createdAt ≥ 24 * 60 * 60 * 1000 then
                some "CANCELLED"
              else none)) ∧
        (isRealWompiTransactionId (p.wompiTransactionId.getD "") = false →
          processPendingPurchase now wompiApi mpApi p =
            if now - p.createdAt ≥ 6 * 60 * 60 * 1000 then some "CANCELLED"
            else none))) ∧
    ((p.paymentProvider = some "MERCADOPAGO" ∨ p.paymentProvider = none) →
      (∀ pid ps, p.mercadopagoPaymentId = some pid → pid ≠ "" →
        mpApi pid = some ps →
        processPendingPurchase now wompiApi mpApi p =
          if mapMercadoPagoStatus ps.status = "PENDING" then none
          else some (mapMercadoPagoStatus ps.status)) ∧
      ((optFalsy p.mercadopagoPaymentId = true ∨
          (∃ pid, p.mercadopagoPaymentId = some pid ∧ mpApi pid = none)) →
        processPendingPurchase now wompiApi mpApi p =
          if p.createdAt < now - 30 * 60 * 1000 then some "CANCELLED"
          else none)) := by
  constructor
  · intro hprov
    have hdisp : processPendingPurchase now wompiApi mpApi p =
        processWompiPurchase now wompiApi p := by
      simp [processPendingPurchase, hprov]
    constructor
    · intro hfalsy
      rw [hdisp, processWompiPurchase]
      simp only [hfalsy, Bool.true_and, decide_eq_true_eq]
      split <;> simp [hp]
    · intro htx
      constructor
      · intro hreal
        constructor
        · intro liveStatus hw
          rw [hdisp, processWompiPurchase]
          simp [htx, hreal, hw, hp]
        · intro hw
          rw [hdisp, processWompiPurchase]
          simp only [htx, Bool.false_and, Bool.false_eq_true, if_false,
            Bool.not_false, if_true, hreal, hw]
          split <;> simp [hp]
      · intro hreal
        rw [hdisp, processWompiPurchase]
        simp only [htx, Bool.false_and, Bool.false_eq_true, if_false,
          Bool.not_false, if_true, hreal]
        split <;> simp [hp]
  · intro hprov
    have hdisp : processPendingPurchase now wompiApi mpApi p =
        processMercadoPagoPurchase now mpApi p := by
      rcases hprov with h | h <;> simp [processPendingPurchase, h]
    constructor
    · intro pid ps hpid hne hma
      rw [hdisp, processMercadoPagoPurchase]
      have hpe : (pid == "") = false := by simp [hne]
      simp [hpid, hpe, hma, hp]
    · intro hcase
      rw [hdisp, processMercadoPagoPurchase]
      have hq : (match p.mercadopagoPaymentId with
          | some pid => if pid == "" then none else mpApi pid
          | none => none) = (none : Option MPPaymentStatus) := by
        rcases hcase with hf | ⟨pid, hpid, hma⟩
        · cases hmp : p.mercadopagoPaymentId with
          | none => rfl
          | some s =>
              rw [hmp] at hf
              have : (s == "") = true := by simpa [optFalsy] using hf
              simp [this]
        · rw [hpid]
          by_cases hpe : (pid == "") = true
          · simp [hpe]
          · simp at hpe
            simp [hpe, hma]
      rw [hq]
      simp only [searchPaymentsByReference, decide_eq_true_eq]
      split <;> simp [hp]

/-- Witness for C2 amended at a concrete input: the abandoned fresh Wompi
purchase (no transaction id, 30 minutes and 1 ms old) is cancelled. -/
theorem C2_amended_witness :
    processPendingPurchase 1800001 (fun _ => none) (fun _ => none)
      Fixtures.wompiFresh = some "CANCELLED" := by
  have h := ((C2_amended 1800001 (fun _ => none) (fun _ => none)
    Fixtures.wompiFresh rfl).1 rfl).1 rfl
  rw [h]
  decide

namespace ReferenceUniqueness

open Reconciliation

theorem str_ext (a b : String) (h : a.data = b.data) : a = b := by
  cases a; cases b; exact congrArg String.mk h

theorem map_digitChar_inj :
    ∀ (l1 l2 : List Nat), (∀ d ∈ l1, d < 10) → (∀ d ∈ l2, d < 10) →
      l1.map Nat.digitChar = l2.map Nat.digitChar → l1 = l2 := by
  have key : ∀ d1 < 10, ∀ d2 < 10,
      Nat.digitChar d1 = Nat.digitChar d2 → d1 = d2 := by decide
  intro l1
  induction l1 with
  | nil => intro l2 _ _ h; cases l2 with
      | nil => rfl
      | cons c t => simp at h
  | cons c t ih =>
      intro l2 h1 h2 h
      cases l2 with
      | nil => simp at h
      | cons c2 t2 =>
          simp at h
          have hc : c = c2 :=
            key c (h1 c (List.mem_cons_self c t)) c2
              (h2 c2 (List.mem_cons_self c2 t2)) h.1
          have ht : t = t2 :=
            ih t2 (fun d hd => h1 d (List.mem_cons_of_mem c hd))
              (fun d hd => h2 d (List.mem_cons_of_mem c2 hd)) h.2
          rw [hc, ht]

theorem toDigitsCore_eq_digits (n : Nat) :
    ∀ (fuel : Nat) (acc : List Char), 0 < n → n < fuel →
      Nat.toDigitsCore 10 fuel n acc =
        ((Nat.digits 10 n).map Nat.digitChar).reverse ++ acc := by
  induction n using Nat.strong_induction_on with
  | _ n ih =>
    intro fuel acc hn hfuel
    cases fuel with
    | zero => omega
    | succ f =>
        rw [Nat.toDigitsCore]
        by_cases hdiv : n / 10 = 0
        · simp only [hdiv, if_pos]
          have hd : Nat.digits 10 n = [n % 10] := by
            rw [Nat.digits_def' (by norm_num : (1:Nat) < 10) hn, hdiv,
              Nat.digits_zero]
          rw [hd]
          simp
        · have h1 : 0 < n / 10 := Nat.pos_of_ne_zero hdiv
          have h2 : n / 10 < n := Nat.div_lt_self hn (by norm_num)
          have h3 : n / 10 < f := by omega
          rw [if_neg hdiv, ih (n / 10) h2 f _ h1 h3]
          rw [Nat.digits_def' (by norm_num : (1:Nat) < 10) hn]
          simp

theorem natRepr_data (n : Nat) (hn : 0 < n) :
    (Nat.repr n).data = ((Nat.digits 10 n).map Nat.digitChar).reverse := by
  show (Nat.toDigits 10 n).asString.data = _
  rw [Nat.toDigits, toDigitsCore_eq_digits n (n + 1) [] hn (by omega)]
  simp [List.asString]

theorem natRepr_chars (n : Nat) :
    ∀ c ∈ (Nat.repr n).data, c ≠ '_' ∧ c ≠ '-' := by
  have key : ∀ d < 10, Nat.digitChar d ≠ '_' ∧ Nat.digitChar d ≠ '-' := by
    decide
  cases Nat.eq_zero_or_pos n with
  | inl h0 =>
      rw [h0]
      intro c hc
      have h00 : (Nat.repr 0).data = ['0'] := rfl
      rw [h00] at hc
      simp at hc
      rw [hc]
      decide
  | inr hpos =>
      intro c hc
      rw [natRepr_data n hpos] at hc
      rw [List.mem_reverse] at hc
      rcases List.mem_map.mp hc with ⟨d, hd, rfl⟩
      exact key d (Nat.digits_lt_base (by norm_num) hd)

theorem natRepr_inj (m n : Nat) (h : Nat.repr m = Nat.repr n) : m = n := by
  have hd : (Nat.repr m).data = (Nat.repr n).data := by rw [h]
  rcases Nat.eq_zero_or_pos m with hm | hm <;>
    rcases Nat.eq_zero_or_pos n with hn | hn
  · rw [hm, hn]
  · exfalso
    rw [hm, natRepr_data n hn] at hd
    have hd2 : (Nat.digits 10 n).map Nat.digitChar = ['0'] := by
      have := congrArg List.reverse hd
      simpa using this.symm
    have hlen : (Nat.digits 10 n).length = 1 := by
      have := congrArg List.length hd2
      simpa using this
    rcases List.length_eq_one.mp hlen with ⟨d, hdig⟩
    rw [hdig] at hd2
    simp at hd2
    have hdlt : d < 10 :=
      Nat.digits_lt_base (by norm_num) (by rw [hdig]; exact List.mem_singleton_self d)
    have : d = 0 := by
      have key : ∀ d < 10, Nat.digitChar d = '0' → d = 0 := by decide
      exact key d hdlt hd2
    rw [this] at hdig
    have := Nat.ofDigits_digits 10 n
    rw [hdig] at this
    simp [Nat.ofDigits] at this
    omega
  · exfalso
    rw [hn, natRepr_data m hm] at hd
    have hd2 : (Nat.digits 10 m).map Nat.digitChar = ['0'] := by
      have := congrArg List.reverse hd
      simpa using this
    have hlen : (Nat.digits 10 m).length = 1 := by
      have := congrArg List.length hd2
      simpa using this
    rcases List.length_eq_one.mp hlen with ⟨d, hdig⟩
    rw [hdig] at hd2
    simp at hd2
    have hdlt : d < 10 :=
      Nat.digits_lt_base (by norm_num) (by rw [hdig]; exact List.mem_singleton_self d)
    have : d = 0 := by
      have key : ∀ d < 10, Nat.digitChar d = '0' → d = 0 := by decide
      exact key d hdlt hd2
    rw [this] at hdig
    have := Nat.ofDigits_digits 10 m
    rw [hdig] at this
    simp [Nat.ofDigits] at this
    omega
  · rw [natRepr_data m hm, natRepr_data n hn] at hd
    have hrev := List.reverse_injective hd
    have hdig : Nat.digits 10 m = Nat.digits 10 n :=
      map_digitChar_inj _ _
        (fun d hd2 => Nat.digits_lt_base (by norm_num) hd2)
        (fun d hd2 => Nat.digits_lt_base (by norm_num) hd2) hrev
    exact Nat.digits.injective 10 hdig

/-- Every character of the dash-joined wallpaper list is a decimal digit or a
dash, never an underscore. -/
theorem joinDash_chars (w : List Nat) :
    ∀ c ∈ (WompiService.joinDash w).data, c ≠ '_' := by
  induction w with
  | nil => intro c hc; simp [WompiService.joinDash] at hc
  | cons n rest ih =>
      intro c hc
      cases rest with
      | nil =>
          simp only [WompiService.joinDash] at hc
          exact (natRepr_chars n c hc).1
      | cons m rest2 =>
          simp only [WompiService.joinDash] at hc
          have hc2 : c ∈ ((Nat.repr n).data ++ ['-']) ++
              (WompiService.joinDash (m :: rest2)).data := hc
          rcases List.mem_append.mp hc2 with h | h
          · rcases List.mem_append.mp h with h2 | h2
            · exact (natRepr_chars n c h2).1
            · rcases List.mem_singleton.mp h2 with rfl
              decide
          · exact ih c h

/-- Splitting at the last underscore is unambiguous when neither left part
contains an underscore. -/
theorem append_underscore_inj (a1 : List Char) :
    ∀ (a2 b1 b2 : List Char), '_' ∉ a1 → '_' ∉ a2 →
      a1 ++ '_' :: b1 = a2 ++ '_' :: b2 → a1 = a2 ∧ b1 = b2 := by
  induction a1 with
  | nil =>
      intro a2 b1 b2 h1 h2 he
      cases a2 with
      | nil => simp at he; exact ⟨rfl, he⟩
      | cons c t =>
          simp at he
          exact absurd (he.1 ▸ List.mem_cons_self c t) (he.1 ▸ h2)
  | cons c t ih =>
      intro a2 b1 b2 h1 h2 he
      cases a2 with
      | nil =>
          simp at he
          exact absurd (he.1 ▸ List.mem_cons_self c t) (he.1 ▸ h1)
      | cons c2 t2 =>
          simp at he
          have h1t : '_' ∉ t := fun hm => h1 (List.mem_cons_of_mem c hm)
          have h2t : '_' ∉ t2 := fun hm => h2 (List.mem_cons_of_mem c2 hm)
          rcases ih t2 b1 b2 h1t h2t he.2 with ⟨ht, hb⟩
          exact ⟨by rw [he.1, ht], hb⟩

end ReferenceUniqueness

open ReferenceUniqueness in
/-- C7 amended: within a provider and across the two providers, the generated
externalReference is determined exactly by the dash-joined wallpaper list and
the millisecond timestamp observed at creation: two references coincide if and
only if those two components coincide.  In particular two creations that
observe distinct Date.now() values always get distinct references, while two
creations in the same millisecond with the same wallpaper list collide (there
is no database uniqueness constraint to stop the second insert). -/
theorem C7_amended (w w2 : List Nat) (t t2 : Nat) :
    (WompiService.createReference w t = WompiService.createReference w2 t2 ↔
      (WompiService.joinDash w = WompiService.joinDash w2 ∧ t = t2)) ∧
    (WompiService.createReference w t =
        MercadoPagoService.createReference w2 t2 ↔
      (WompiService.joinDash w = WompiService.joinDash w2 ∧ t = t2)) := by
  have main : WompiService.createReference w t =
      WompiService.createReference w2 t2 ↔
      (WompiService.joinDash w = WompiService.joinDash w2 ∧ t = t2) := by
    constructor
    · intro h
      have hd : (WompiService.createReference w t).data =
          (WompiService.createReference w2 t2).data := by rw [h]
      have hform : ∀ (v : List Nat) (s : Nat),
          (WompiService.createReference v s).data =
            "wallpapers_".data ++
              ((WompiService.joinDash v).data ++ '_' :: (Nat.repr s).data) := by
        intro v s
        show ("wallpapers_" ++ WompiService.joinDash v ++ "_" ++
          Nat.repr s).data = _
        simp [List.append_assoc]
      rw [hform, hform] at hd
      have hd2 := List.append_cancel_left hd
      have hw1 : '_' ∉ (WompiService.joinDash w).data := fun hm =>
        joinDash_chars w _ hm rfl
      have hw2 : '_' ∉ (WompiService.joinDash w2).data := fun hm =>
        joinDash_chars w2 _ hm rfl
      rcases append_underscore_inj _ _ _ _ hw1 hw2 hd2 with ⟨hj, hr⟩
      exact ⟨str_ext _ _ hj, natRepr_inj t t2 (str_ext _ _ hr)⟩
    · intro ⟨hj, ht⟩
      rw [WompiService.createReference, WompiService.createReference, hj, ht]
  exact ⟨main, main⟩

namespace Idempotence

open Reconciliation Webhooks

/-- An inbound webhook delivery, through either provider's function. -/
inductive WebhookEvent
  | wompi (body : Option WompiBody)
  | mercadoPago (body : Option MPBody)

/-- The store effect of one delivery at time `now` (processing succeeds: the
MercadoPago status-update call does not throw). -/
def deliver : WebhookEvent → Int → Store → Store
  | WebhookEvent.wompi b, now, s => (funcWebhookWompi b now s).2
  | WebhookEvent.mercadoPago b, now, s =>
      (funcWebhookMercadoPago b none now s).2

/-- The id/status projection of a store. -/
def statusesOf (s : Store) : List (Nat × String) :=
  s.map fun p => (p.id, p.status)

/-- Forget the updatedAt timestamp of a purchase. -/
def eraseTime (p : Purchase) : Purchase := { p with updatedAt := 0 }

/-- Forget every updatedAt timestamp. -/
def eraseTimes (s : Store) : Store := s.map eraseTime

/-- The write a Wompi webhook body requests, if any: a reference filter plus
the status to store.  Derived bookkeeping for the proofs; the handler itself
is `funcWebhookWompi`. -/
def wompiEffect (b : WompiBody) : Option (Option String × String) :=
  if optFalsy b.event || b.data.isNone then none
  else
    let d := b.data.getD ⟨none, none⟩
    match b.event.getD "" with
    | "payment_link.paid" =>
        match d.paymentLink with
        | none => none
        | some pl =>
            if optFalsy pl.id then none else some (pl.reference, "COMPLETED")
    | "payment_link.expired" =>
        match d.paymentLink with
        | none => none
        | some pl =>
            if optFalsy pl.id then none else some (pl.reference, "CANCELLED")
    | _ => none

/-- The call a MercadoPago webhook body makes into updatePaymentStatus, if
any: payment id, status and the optional event reference. -/
def mpEffect (ob : Option MPBody) : Option (String × String × Option String) :=
  let type := ob.bind (fun b => b.type)
  let data := ob.bind (fun b => b.data)
  if optFalsy type || data.isNone then none
  else if type.getD "" = "payment" then
    let paymentId := (data.getD ⟨none⟩).id
    if optFalsy paymentId then none
    else
      let status :=
        if (ob.bind (fun b => b.action)).getD "" = "payment.created" then
          "PENDING"
        else if (ob.bind (fun b => b.action)).getD "" = "payment.updated" then
          "APPROVED"
        else "PENDING"
      some (paymentId.getD "", status, ob.bind (fun b => b.externalReference))
  else none

/-- The Wompi handler's store effect is exactly the one wompiEffect names. -/
theorem wompi_store_effect (ob : Option WompiBody) (now : Int) (s : Store) :
    (funcWebhookWompi ob now s).2 =
      match ob with
      | none => s
      | some b =>
          match wompiEffect b with
          | none => s
          | some (r, st) =>
              WompiPurchaseService.updatePurchaseStatusByReference r st now s := by
  cases ob with
  | none => rfl
  | some b =>
      rw [funcWebhookWompi]
      unfold wompiEffect
      by_cases hga : (optFalsy b.event || b.data.isNone) = true
      · simp only [hga, if_true]
      · simp only [hga, Bool.false_eq_true, if_false]
        have hpc : (match b.signature with
            | some sig =>
                WompiService.validateWebhookSignature (stringifyWompiBody b) sig
            | none => true) = true := by
          cases b.signature <;> rfl
        rw [hpc]
        simp only [if_true]
        generalize (b.data.getD ⟨none, none⟩) = d
        generalize b.event.getD "" = ev
        split
        · cases htr : d.transaction with
          | none => simp [handleTransactionUpdated, htr]
          | some tr =>
              cases htid : optFalsy tr.id <;>
                simp [handleTransactionUpdated, htr, htid,
                  WompiPurchaseService.updatePurchaseStatus]
        · cases hpl : d.paymentLink with
          | none => simp [handlePaymentLinkPaid, hpl]
          | some pl =>
              cases hid : optFalsy pl.id <;>
                simp [handlePaymentLinkPaid, hpl, hid]
        · cases hpl : d.paymentLink with
          | none => simp [handlePaymentLinkExpired, hpl]
          | some pl =>
              cases hid : optFalsy pl.id <;>
                simp [handlePaymentLinkExpired, hpl, hid]
        · rename_i h1 h2 h3
          split
          · rfl
          · rename_i heq2
            split at heq2
            · exact (h2 rfl).elim
            · exact (h3 rfl).elim
            · exact Option.noConfusion heq2

/-- The MercadoPago handler's store effect is exactly the call mpEffect
names. -/
theorem mp_store_effect (ob : Option MPBody) (now : Int) (s : Store) :
    (funcWebhookMercadoPago ob none now s).2 =
      match mpEffect ob with
      | none => s
      | some (pid, st, ref) =>
          PurchaseService.updatePaymentStatus pid st ref now s := by
  rw [funcWebhookMercadoPago]
  unfold mpEffect
  by_cases hga : (optFalsy (ob.bind (fun b => b.type))
      || (ob.bind (fun b => b.data)).isNone) = true
  · simp only [hga, if_true]
  · simp only [hga, Bool.false_eq_true, if_false]
    by_cases hpay : (ob.bind (fun b => b.type)).getD "" = "payment"
    · simp only [hpay, if_true]
      by_cases hpid : optFalsy ((ob.bind (fun b => b.data)).getD ⟨none⟩).id = true
      · simp only [hpid, if_true]
      · simp only [hpid, Bool.false_eq_true, if_false]
    · simp only [hpay, if_false]

end Idempotence

namespace Idempotence

open Reconciliation Webhooks

/-- Erasing timestamps commutes with the bulk write by reference (the filter
only reads externalReference, which erasure preserves). -/
theorem updateByRef_erase (r : Option String) (st : String) (t : Int)
    (s : Store) :
    eraseTimes
        (WompiPurchaseService.updatePurchaseStatusByReference r st t s) =
      WompiPurchaseService.updatePurchaseStatusByReference r st 0
        (eraseTimes s) := by
  simp only [eraseTimes, WompiPurchaseService.updatePurchaseStatusByReference,
    List.map_map]
  apply List.map_congr_left
  intro p _
  cases r with
  | none =>
      simp [Function.comp, WompiPurchaseService.matchesReferenceFilter,
        eraseTime]
  | some rr =>
      by_cases h : (p.externalReference == rr) = true <;>
        simp [Function.comp, WompiPurchaseService.matchesReferenceFilter,
          eraseTime, h]

/-- Applying the same bulk write by reference twice equals applying it
once. -/
theorem updateByRef_idem (r : Option String) (st : String) (t : Int)
    (s : Store) :
    WompiPurchaseService.updatePurchaseStatusByReference r st t
        (WompiPurchaseService.updatePurchaseStatusByReference r st t s) =
      WompiPurchaseService.updatePurchaseStatusByReference r st t s := by
  simp only [WompiPurchaseService.updatePurchaseStatusByReference,
    List.map_map]
  apply List.map_congr_left
  intro p _
  cases r with
  | none =>
      simp [Function.comp, WompiPurchaseService.matchesReferenceFilter]
  | some rr =>
      by_cases h : (p.externalReference == rr) = true <;>
        simp [Function.comp, WompiPurchaseService.matchesReferenceFilter, h]

/-- Erasing timestamps commutes with the single-row payment update (the row
is selected by id, which erasure preserves). -/
theorem applyPaymentUpdate_erase (s : Store) (i : Nat) (st : String)
    (pid : String) (t : Int) :
    eraseTimes (applyPaymentUpdate s i st pid t) =
      applyPaymentUpdate (eraseTimes s) i st pid 0 := by
  simp only [eraseTimes, applyPaymentUpdate, List.map_map]
  apply List.map_congr_left
  intro p _
  by_cases h : p.id = i
  · simp [Function.comp, h, eraseTime]
  · simp [Function.comp, h, eraseTime]

/-- Applying the same single-row payment update twice equals applying it
once. -/
theorem applyPaymentUpdate_idem (s : Store) (i : Nat) (st : String)
    (pid : String) (t : Int) :
    applyPaymentUpdate (applyPaymentUpdate s i st pid t) i st pid t =
      applyPaymentUpdate s i st pid t := by
  simp only [applyPaymentUpdate, List.map_map]
  apply List.map_congr_left
  intro p _
  by_cases h : p.id = i
  · simp [Function.comp, h]
  · simp [Function.comp, h]

end Idempotence

namespace Idempotence

open Reconciliation Webhooks

/-- Looking up by payment id commutes with erasing timestamps. -/
theorem find?_pid_erase (s : Store) (pid : String) :
    (eraseTimes s).find? (fun p => p.mercadopagoPaymentId == some pid) =
      (s.find? (fun p => p.mercadopagoPaymentId == some pid)).map eraseTime := by
  rw [eraseTimes, List.find?_map]
  rfl

/-- Looking up by external reference commutes with erasing timestamps. -/
theorem find?_ref_erase (s : Store) (evRef : Option String) :
    (eraseTimes s).find? (fun p => some p.externalReference == evRef) =
      (s.find? (fun p => some p.externalReference == evRef)).map eraseTime := by
  rw [eraseTimes, List.find?_map]
  rfl

/-- Erasing timestamps commutes with updatePaymentStatus: the resolution
predicates ignore updatedAt and the write itself commutes. -/
theorem updatePaymentStatus_erase (pid st : String) (evRef : Option String)
    (t : Int) (s : Store) :
    eraseTimes (PurchaseService.updatePaymentStatus pid st evRef t s) =
      PurchaseService.updatePaymentStatus pid st evRef 0 (eraseTimes s) := by
  rw [PurchaseService.updatePaymentStatus, PurchaseService.updatePaymentStatus]
  rw [find?_pid_erase]
  cases hf : s.find? (fun p => p.mercadopagoPaymentId == some pid) with
  | some p =>
      simp only [hf, Option.map_some']
      exact applyPaymentUpdate_erase s p.id st pid t
  | none =>
      simp only [hf, Option.map_none']
      cases hre : optFalsy evRef with
      | true => simp [hre]
      | false =>
          simp only [hre, Bool.not_false, if_true]
          rw [find?_ref_erase]
          cases hf2 : s.find? (fun p => some p.externalReference == evRef) with
          | some p =>
              simp only [hf2, Option.map_some']
              exact applyPaymentUpdate_erase s p.id st pid t
          | none => simp [hf2]

/-- After writing the payment id onto the row with index id, a lookup by
payment id finds a row with that same id (the written row, or an equal-id row
before it). -/
theorem find?_pid_after_update_found (st pid : String) (t : Int) :
    ∀ (s : Store) (p : Purchase),
      s.find? (fun q => q.mercadopagoPaymentId == some pid) = some p →
      ∃ r, (applyPaymentUpdate s p.id st pid t).find?
          (fun q => q.mercadopagoPaymentId == some pid) = some r ∧
        r.id = p.id := by
  intro s
  induction s with
  | nil => intro p hp; simp at hp
  | cons h tl ih =>
      intro p hp
      rw [List.find?_cons] at hp
      cases hph : (h.mercadopagoPaymentId == some pid) with
      | true =>
          rw [hph] at hp
          injection hp with hp2
          subst hp2
          refine Exists.intro { h with status := st, mercadopagoPaymentId := some pid, updatedAt := t } ⟨?_, rfl⟩
          show List.find? _ (List.map _ (h :: tl)) = _
          rw [List.map_cons, List.find?_cons]
          simp
      | false =>
          rw [hph] at hp
          by_cases hid : h.id = p.id
          · refine Exists.intro { h with status := st, mercadopagoPaymentId := some pid, updatedAt := t } ⟨?_, hid⟩
            show List.find? _ (List.map _ (h :: tl)) = _
            rw [List.map_cons, List.find?_cons]
            simp [hid]
          · obtain ⟨r, hr, hrid⟩ := ih p hp
            refine ⟨r, ?_, hrid⟩
            show List.find? _ (List.map _ (h :: tl)) = _
            rw [List.map_cons, List.find?_cons]
            simp only [hid, if_false]
            rw [hph]
            exact hr

/-- If no row matches the payment id but some row carries the written id, the
write makes a lookup by payment id find a row with that id. -/
theorem find?_pid_after_update_ref (st pid : String) (t : Int) :
    ∀ (s : Store) (p : Purchase),
      s.find? (fun q => q.mercadopagoPaymentId == some pid) = none →
      p ∈ s →
      ∃ r, (applyPaymentUpdate s p.id st pid t).find?
          (fun q => q.mercadopagoPaymentId == some pid) = some r ∧
        r.id = p.id := by
  intro s
  induction s with
  | nil => intro p _ hmem; cases hmem
  | cons h tl ih =>
      intro p hnone hmem
      rw [List.find?_cons] at hnone
      cases hph : (h.mercadopagoPaymentId == some pid) with
      | true => rw [hph] at hnone; cases hnone
      | false =>
          rw [hph] at hnone
          by_cases hid : h.id = p.id
          · refine Exists.intro { h with status := st, mercadopagoPaymentId := some pid, updatedAt := t } ⟨?_, hid⟩
            show List.find? _ (List.map _ (h :: tl)) = _
            rw [List.map_cons, List.find?_cons]
            simp [hid]
          · have hmem2 : p ∈ tl := by
              rcases List.mem_cons.mp hmem with rfl | hmem2
              · exact absurd rfl hid
              · exact hmem2
            obtain ⟨r, hr, hrid⟩ := ih p hnone hmem2
            refine ⟨r, ?_, hrid⟩
            show List.find? _ (List.map _ (h :: tl)) = _
            rw [List.map_cons, List.find?_cons]
            simp only [hid, if_false]
            rw [hph]
            exact hr

/-- Delivering the same MercadoPago status update twice equals delivering it
once: the second delivery resolves to a row carrying the same id and rewrites
the same values. -/
theorem updatePaymentStatus_idem (pid st : String) (evRef : Option String)
    (t : Int) (s : Store) :
    PurchaseService.updatePaymentStatus pid st evRef t
        (PurchaseService.updatePaymentStatus pid st evRef t s) =
      PurchaseService.updatePaymentStatus pid st evRef t s := by
  cases hf : s.find? (fun q => q.mercadopagoPaymentId == some pid) with
  | some p =>
      have hUs : PurchaseService.updatePaymentStatus pid st evRef t s =
          applyPaymentUpdate s p.id st pid t := by
        rw [PurchaseService.updatePaymentStatus, hf]
      obtain ⟨r, hr, hrid⟩ := find?_pid_after_update_found st pid t s p hf
      rw [hUs]
      rw [PurchaseService.updatePaymentStatus, hr]
      show applyPaymentUpdate (applyPaymentUpdate s p.id st pid t) r.id
          st pid t = _
      rw [hrid]
      exact applyPaymentUpdate_idem s p.id st pid t
  | none =>
      cases hre : optFalsy evRef with
      | true =>
          have hUs : PurchaseService.updatePaymentStatus pid st evRef t s =
              s := by
            rw [PurchaseService.updatePaymentStatus, hf]
            simp [hre]
          rw [hUs, hUs]
      | false =>
          cases hf2 : s.find? (fun q => some q.externalReference == evRef) with
          | none =>
              have hUs : PurchaseService.updatePaymentStatus pid st evRef t s =
                  s := by
                rw [PurchaseService.updatePaymentStatus, hf]
                simp [hre, hf2]
              rw [hUs, hUs]
          | some p =>
              have hUs : PurchaseService.updatePaymentStatus pid st evRef t s =
                  applyPaymentUpdate s p.id st pid t := by
                rw [PurchaseService.updatePaymentStatus, hf]
                simp [hre, hf2]
              have hpmem : p ∈ s := List.mem_of_find?_eq_some hf2
              obtain ⟨r, hr, hrid⟩ :=
                find?_pid_after_update_ref st pid t s p hf hpmem
              rw [hUs]
              rw [PurchaseService.updatePaymentStatus, hr]
              show applyPaymentUpdate (applyPaymentUpdate s p.id st pid t)
                  r.id st pid t = _
              rw [hrid]
              exact applyPaymentUpdate_idem s p.id st pid t

end Idempotence

namespace Idempotence

open Reconciliation Webhooks

/-- Delivering at any time and then erasing timestamps equals delivering at
time 0 on the erased store: no webhook decision reads updatedAt. -/
theorem deliver_erase (e : WebhookEvent) (t : Int) (s : Store) :
    eraseTimes (deliver e t s) = deliver e 0 (eraseTimes s) := by
  cases e with
  | wompi ob =>
      show eraseTimes (funcWebhookWompi ob t s).2 =
        (funcWebhookWompi ob 0 (eraseTimes s)).2
      rw [wompi_store_effect, wompi_store_effect]
      cases ob with
      | none => rfl
      | some b =>
          cases heff : wompiEffect b with
          | none => simp only [heff]
          | some pr =>
              obtain ⟨r, st2⟩ := pr
              simp only [heff]
              exact updateByRef_erase r st2 t s
  | mercadoPago ob =>
      show eraseTimes (funcWebhookMercadoPago ob none t s).2 =
        (funcWebhookMercadoPago ob none 0 (eraseTimes s)).2
      rw [mp_store_effect, mp_store_effect]
      cases heff : mpEffect ob with
      | none => simp only [heff]
      | some pr =>
          obtain ⟨pid, st2, ref⟩ := pr
          simp only [heff]
          exact updatePaymentStatus_erase pid st2 ref t s

/-- Delivering the same event twice at the same time equals delivering it
once. -/
theorem deliver_idem (e : WebhookEvent) (t : Int) (s : Store) :
    deliver e t (deliver e t s) = deliver e t s := by
  cases e with
  | wompi ob =>
      show (funcWebhookWompi ob t (funcWebhookWompi ob t s).2).2 =
        (funcWebhookWompi ob t s).2
      rw [wompi_store_effect, wompi_store_effect]
      cases ob with
      | none => rfl
      | some b =>
          cases heff : wompiEffect b with
          | none => simp only [heff]
          | some pr =>
              obtain ⟨r, st2⟩ := pr
              simp only [heff]
              exact updateByRef_idem r st2 t s
  | mercadoPago ob =>
      show (funcWebhookMercadoPago ob none t
          (funcWebhookMercadoPago ob none t s).2).2 =
        (funcWebhookMercadoPago ob none t s).2
      rw [mp_store_effect, mp_store_effect]
      cases heff : mpEffect ob with
      | none => simp only [heff]
      | some pr =>
          obtain ⟨pid, st2, ref⟩ := pr
          simp only [heff]
          exact updatePaymentStatus_idem pid st2 ref t s

/-- The id/status projection ignores timestamps. -/
theorem statusesOf_erase (s : Store) :
    statusesOf (eraseTimes s) = statusesOf s := by
  simp only [statusesOf, eraseTimes, List.map_map]
  apply List.map_congr_left
  intro p _
  rfl

end Idempotence

open Idempotence in
/-- C5: delivering the same webhook event N times (one delivery at time t
followed by redeliveries at arbitrary times ts) leaves every purchase with the
same id and status as delivering it exactly once — webhook ingestion is
idempotent on purchase status for both providers. -/
theorem C5_webhook_idempotent (e : WebhookEvent) (t : Int) (ts : List Int)
    (s : Reconciliation.Store) :
    statusesOf (ts.foldl (fun st t2 => deliver e t2 st) (deliver e t s)) =
      statusesOf (deliver e t s) := by
  have key : ∀ (ts2 : List Int) (st : Reconciliation.Store),
      eraseTimes st = eraseTimes (deliver e t s) →
      eraseTimes (ts2.foldl (fun st t2 => deliver e t2 st) st) =
        eraseTimes (deliver e t s) := by
    intro ts2
    induction ts2 with
    | nil => intro st h; exact h
    | cons t2 rest ih =>
        intro st h
        rw [List.foldl_cons]
        apply ih
        rw [deliver_erase, h, deliver_erase, deliver_idem]
  have h1 := key ts (deliver e t s) rfl
  calc statusesOf (ts.foldl (fun st t2 => deliver e t2 st) (deliver e t s))
      = statusesOf (eraseTimes
          (ts.foldl (fun st t2 => deliver e t2 st) (deliver e t s))) :=
        (statusesOf_erase _).symm
    _ = statusesOf (eraseTimes (deliver e t s)) := by rw [h1]
    _ = statusesOf (deliver e t s) := statusesOf_erase _
